import Mathlib

/-!
Verification of the mean-reversion trading core (orderbook analysis, spike
detection, decision composition, order lifecycle tracking).

The Python modules `orderbook.py`, `spike_detector.py`, `strategy.py` and the
relevant pieces of `config.py` / `polymarket_client.py` are shallowly embedded
here.  Float arithmetic is modelled over `ℚ`; Python's `round(x, 2)` (banker's
rounding) is modelled exactly as round-half-to-even on rationals; Python's
`int(x)` truncation is modelled as truncation toward zero; exceptions are
modelled with `Except`; the per-key mutable dictionaries are modelled as
association lists.
-/

/-- Round-half-to-even on rationals: the model of Python's `round(x)` on the
exact value.  Ties (fractional part exactly 1/2) go to the even integer;
otherwise rounds to the nearest integer. -/
def rne (q : ℚ) : ℤ :=
  if Int.fract q = 1 / 2 then (if 2 ∣ ⌊q⌋ then ⌊q⌋ else ⌊q⌋ + 1) else round q

/-- Model of Python's `round(x, 2)`: scale by 100, round half to even, scale
back. -/
def round2 (q : ℚ) : ℚ := (rne (q * 100) : ℚ) / 100

/-- A rational is aligned to the 0.01 tick grid: `q * 100` is an integer. -/
def tickAligned (q : ℚ) : Prop := (q * 100).den = 1

instance : DecidablePred tickAligned := fun q => inferInstanceAs (Decidable ((q * 100).den = 1))

lemma floor_le_rne (q : ℚ) : ⌊q⌋ ≤ rne q := by
  unfold rne
  split
  · split
    · exact le_refl _
    · exact le_of_lt (lt_add_one _)
  · rw [round_eq]
    exact Int.floor_le_floor (by linarith)

lemma rne_nonneg {q : ℚ} (h : 0 ≤ q) : 0 ≤ rne q :=
  le_trans (Int.le_floor.mpr (by exact_mod_cast h)) (floor_le_rne q)

lemma rne_le {q : ℚ} {C : ℤ} (h : q ≤ C) : rne q ≤ C := by
  unfold rne
  split
  · have hq : q = (⌊q⌋ : ℚ) + 1 / 2 := by
      have := Int.fract_add_floor q
      rename_i hf
      rw [hf] at this
      linarith
    have hfl : ⌊q⌋ < C := by
      have : (⌊q⌋ : ℚ) < (C : ℚ) := by
        rw [hq] at h
        linarith
      exact_mod_cast this
    split
    · omega
    · omega
  · rw [round_eq]
    have hlt : ⌊q + 1 / 2⌋ < C + 1 := (Int.floor_lt).mpr (by push_cast; linarith)
    omega

lemma round2_tickAligned (q : ℚ) : tickAligned (round2 q) := by
  unfold tickAligned round2
  have h : (rne (q * 100) : ℚ) / 100 * 100 = (rne (q * 100) : ℚ) := by
    field_simp
  rw [h]
  exact Rat.den_intCast _

lemma round2_nonneg {q : ℚ} (h : 0 ≤ q) : 0 ≤ round2 q := by
  unfold round2
  have : (0 : ℤ) ≤ rne (q * 100) := rne_nonneg (by linarith)
  positivity

lemma round2_le_one {q : ℚ} (h : q ≤ 1) : round2 q ≤ 1 := by
  unfold round2
  have h100 : q * 100 ≤ ((100 : ℤ) : ℚ) := by push_cast; linarith
  have : rne (q * 100) ≤ 100 := rne_le h100
  rw [div_le_one (by norm_num)]
  exact_mod_cast this

lemma tickAligned_iff (q : ℚ) : tickAligned q ↔ ∃ k : ℤ, q = (k : ℚ) / 100 := by
  constructor
  · intro h
    refine ⟨(q * 100).num, ?_⟩
    have := (Rat.den_eq_one_iff (q * 100)).mp h
    rw [this]
    field_simp
  · rintro ⟨k, rfl⟩
    unfold tickAligned
    have : (k : ℚ) / 100 * 100 = (k : ℚ) := by field_simp
    rw [this]
    exact Rat.den_intCast _

/-- Model of Python's `int(x)` applied to a float: truncation toward zero. -/
def truncInt (q : ℚ) : ℤ := if 0 ≤ q then ⌊q⌋ else ⌈q⌉

/-! ## Orderbook data model (orderbook.py) -/

/-- How aggressively to place the order (`OrderUrgency` in orderbook.py). -/
inductive OrderUrgency where
  | passive
  | moderate
  | aggressive
deriving DecidableEq, Repr

/-- Single price level in the orderbook (`OrderbookLevel`). -/
structure OrderbookLevel where
  price : ℚ
  size : ℚ
deriving DecidableEq, Repr

/-- Analysis of orderbook state (`OrderbookAnalysis`). -/
structure OrderbookAnalysis where
  best_bid : ℚ
  best_ask : ℚ
  spread : ℚ
  spread_bps : ℚ
  bid_depth_1pct : ℚ
  ask_depth_1pct : ℚ
  bid_levels : List OrderbookLevel
  ask_levels : List OrderbookLevel
  imbalance : ℚ
deriving DecidableEq, Repr

/-- The `mid_price` property. -/
def mid_price (a : OrderbookAnalysis) : ℚ := (a.best_bid + a.best_ask) / 2

/-- The `is_thin` property: spread > 5% (500 bps) or bid depth < $500. -/
def is_thin (a : OrderbookAnalysis) : Bool :=
  decide (a.spread_bps > 500) || decide (a.bid_depth_1pct < 500)

/-- Price tick size on Polymarket (`OrderbookAnalyzer.__init__`). -/
def tick_size : ℚ := 1 / 100

/-- `OrderbookAnalyzer._calc_depth`: total size within 1% of the reference
price, on the side selected by `direction` (-1 for bids, +1 for asks). -/
def calc_depth (levels : List OrderbookLevel) (reference : ℚ) (direction : ℤ) : ℚ :=
  if levels = [] ∨ reference ≤ 0 then 0
  else
    let threshold := reference * (1 + (direction : ℚ) * (1 / 100))
    levels.foldl
      (fun total level =>
        if direction = -1 ∧ level.price ≥ threshold then total + level.size
        else if direction = 1 ∧ level.price ≤ threshold then total + level.size
        else total)
      0

/-- `OrderbookAnalyzer.analyze` after the level-parsing step: computes the
metrics from already-parsed bid and ask level lists.  Note the source takes
`bid_levels[0]` / `ask_levels[0]` as the best levels, in input order. -/
def analyzeParsed (bid_levels ask_levels : List OrderbookLevel) : OrderbookAnalysis :=
  let best_bid := match bid_levels with | [] => 0 | l :: _ => l.price
  let best_ask := match ask_levels with | [] => 1 | l :: _ => l.price
  let spread := best_ask - best_bid
  let spread_bps := if best_bid > 0 then spread / best_bid * 10000 else 0
  let bid_depth := calc_depth bid_levels best_bid (-1)
  let ask_depth := calc_depth ask_levels best_ask 1
  let total_bid := ((bid_levels.take 5).map OrderbookLevel.size).sum
  let total_ask := ((ask_levels.take 5).map OrderbookLevel.size).sum
  let imbalance := if total_bid + total_ask > 0 then (total_bid - total_ask) / (total_bid + total_ask) else 0
  { best_bid := best_bid
    best_ask := best_ask
    spread := spread
    spread_bps := spread_bps
    bid_depth_1pct := bid_depth
    ask_depth_1pct := ask_depth
    bid_levels := bid_levels
    ask_levels := ask_levels
    imbalance := imbalance }

/-- A raw orderbook level as received in the snapshot dict: each field is
`none` when the `"price"` / `"size"` entry is missing or not parseable as a
float (in which case the Python parse raises). -/
structure RawLevel where
  price : Option ℚ
  size : Option ℚ
deriving DecidableEq, Repr

/-- A raw orderbook snapshot `\x7bbids: [...], asks: [...]\x7d`. -/
structure RawOrderbook where
  bids : List RawLevel
  asks : List RawLevel
deriving DecidableEq, Repr

/-- Parsing one raw level: models `OrderbookLevel(float(b["price"]), float(b["size"]))`,
which raises on a malformed entry. -/
def parseLevel (r : RawLevel) : Except String OrderbookLevel :=
  match r.price, r.size with
  | some p, some s => Except.ok ⟨p, s⟩
  | _, _ => Except.error "malformed level"

/-- Parse a list of raw levels, propagating the first failure. -/
def parseLevels : List RawLevel → Except String (List OrderbookLevel)
  | [] => Except.ok []
  | r :: rest => do
    let l ← parseLevel r
    let ls ← parseLevels rest
    pure (l :: ls)

/-- `OrderbookAnalyzer.analyze` on the raw snapshot: parse the bid and ask
levels (possibly raising) and compute the analysis. -/
def analyzeE (ob : RawOrderbook) : Except String OrderbookAnalysis := do
  let bid_levels ← parseLevels ob.bids
  let ask_levels ← parseLevels ob.asks
  pure (analyzeParsed bid_levels ask_levels)

/-- Recursion underlying `OrderbookAnalyzer.calculate_queue_position`: walk the
bid levels; accumulate `int(size)` of levels priced above ours; add the size of
the level at exactly our price and stop; stop at the first worse level. -/
def queue_go (price : ℚ) : List OrderbookLevel → ℤ
  | [] => 0
  | l :: rest =>
    if l.price > price then truncInt l.size + queue_go price rest
    else if l.price = price then truncInt l.size
    else 0

/-- `OrderbookAnalyzer.calculate_queue_position` (the `size` argument is
unused in the source as well). -/
def calculate_queue_position (price : ℚ) (size : ℚ) (bid_levels : List OrderbookLevel) : ℤ :=
  queue_go price bid_levels

/-- `SmartOrderParams`. -/
structure SmartOrderParams where
  price : ℚ
  size : ℚ
  urgency : OrderUrgency
  reason : String
  expected_queue_position : ℤ
  estimated_fill_time_seconds : ℚ
deriving DecidableEq, Repr

/-- `OrderbookAnalyzer._determine_urgency`: ordered rule ladder. -/
def determine_urgency (spike_magnitude : ℚ) (time_since_spike : ℚ)
    (analysis : OrderbookAnalysis) : OrderUrgency :=
  if spike_magnitude ≥ 40 / 100 then OrderUrgency.aggressive
  else if spike_magnitude ≥ 30 / 100 ∨ is_thin analysis then OrderUrgency.moderate
  else if analysis.imbalance < -(2 / 10) then OrderUrgency.passive
  else if time_since_spike < 30 then OrderUrgency.moderate
  else OrderUrgency.passive

/-- `OrderbookAnalyzer._calculate_price`: order price and reason by urgency.
Aggressive and Moderate round to 2 decimals; Passive returns `best_bid` as is. -/
def calculate_price (analysis : OrderbookAnalysis) (urgency : OrderUrgency) : ℚ × String :=
  match urgency with
  | OrderUrgency.aggressive =>
      (round2 (min analysis.best_ask (mid_price analysis + tick_size)),
       "Crossing spread for immediate fill")
  | OrderUrgency.moderate =>
      (round2 (min (analysis.best_bid + tick_size) (mid_price analysis)),
       "Improving bid by 1 tick")
  | OrderUrgency.passive =>
      (analysis.best_bid, "Joining best bid")

/-- `OrderbookAnalyzer.get_optimal_order`. -/
def get_optimal_order (analysis : OrderbookAnalysis) (target_size : ℚ)
    (spike_magnitude : ℚ) (time_since_spike : ℚ) : SmartOrderParams :=
  let urgency := determine_urgency spike_magnitude time_since_spike analysis
  let pr := calculate_price analysis urgency
  let queue_pos := calculate_queue_position pr.1 target_size analysis.bid_levels
  let est_fill_time := if queue_pos > 0 then (queue_pos : ℚ) / 100 * 60 else 5
  { price := pr.1
    size := target_size
    urgency := urgency
    reason := pr.2
    expected_queue_position := queue_pos
    estimated_fill_time_seconds := est_fill_time }

/-- `OrderbookAnalyzer.should_cancel_order`.  The second rule is a nested
`if` in the source: when the order is old but still near the best bid,
control falls through to the third rule. -/
def should_cancel_order (order_price : ℚ) (order_age_seconds : ℚ)
    (current_analysis : OrderbookAnalysis) (original_spike_pct : ℚ) : Bool × String :=
  if current_analysis.best_bid > order_price + 5 / 100 then
    (true, "Price moved up significantly, order stale")
  else if order_age_seconds > 300 ∧ order_price < current_analysis.best_bid - 2 / 100 then
    (true, "Order stale and far from best bid")
  else if 1 - mid_price current_analysis > 60 / 100 then
    (true, "Spike already reverted, opportunity passed")
  else
    (false, "")

/-- One cancellation rule: a decidable condition over the call arguments,
paired with its reason string. -/
structure CancelRule where
  cond : ℚ → ℚ → OrderbookAnalysis → ℚ → Bool
  reason : String

/-- First-true-wins evaluation of an ordered rule list. -/
def evalCancelRules (rules : List CancelRule) (order_price order_age_seconds : ℚ)
    (analysis : OrderbookAnalysis) (original_spike_pct : ℚ) : Bool × String :=
  match rules with
  | [] => (false, "")
  | r :: rest =>
    if r.cond order_price order_age_seconds analysis original_spike_pct then (true, r.reason)
    else evalCancelRules rest order_price order_age_seconds analysis original_spike_pct

/-- Modelled from the spec's words (section 4.2): the three cancellation rules
as an ordered first-true-wins decision table. -/
def spec_cancel_rules : List CancelRule :=
  [ { cond := fun op _ a _ => decide (a.best_bid > op + 5 / 100),
      reason := "Price moved up significantly, order stale" },
    { cond := fun op age a _ => decide (age > 300) && decide (op < a.best_bid - 2 / 100),
      reason := "Order stale and far from best bid" },
    { cond := fun _ _ a _ => decide (1 - mid_price a > 60 / 100),
      reason := "Spike already reverted, opportunity passed" } ]

/-! ## Order tracking (orderbook.py, `OrderTracker`) -/

/-- The per-order record kept in `OrderTracker.orders` (a Python dict). -/
structure OrderInfo where
  order_id : String
  token_id : String
  price : ℚ
  size : ℚ
  original_size : ℚ
  filled : ℚ
  created_at : ℚ
  status : String
deriving DecidableEq, Repr

/-- The tracker's `orders` dict, as an association list from order id to
order info. -/
def OrderTracker := List (String × OrderInfo)

/-- `OrderTracker.add_order`: record a new order with status "open". -/
def add_order (t : OrderTracker) (order_id token_id : String) (price size : ℚ)
    (now : ℚ) : OrderTracker :=
  (order_id,
   { order_id := order_id
     token_id := token_id
     price := price
     size := size
     original_size := size
     filled := 0
     created_at := now
     status := "open" }) :: t

/-- The effect of `OrderTracker.update_fill` on a single order record:
store the reported cumulative fill, recompute the remaining size from the
original size, and mark the order filled when the remainder is ≤ 0. -/
def applyFill (o : OrderInfo) (filled_size : ℚ) : OrderInfo :=
  let o1 := { o with filled := filled_size, size := o.original_size - filled_size }
  if o1.size ≤ 0 then { o1 with status := "filled" } else o1

/-- `OrderTracker.update_fill`: update the matching order, if present. -/
def update_fill (t : OrderTracker) (oid : String) (filled_size : ℚ) : OrderTracker :=
  t.map (fun p => if p.1 = oid then (p.1, applyFill p.2 filled_size) else p)

/-- Lookup of an order by id in the tracker. -/
def findOrder (t : OrderTracker) (oid : String) : Option OrderInfo :=
  match t with
  | [] => none
  | p :: rest => if p.1 = oid then some p.2 else findOrder rest oid

lemma findOrder_update_fill (t : OrderTracker) (oid : String) (f : ℚ) :
    findOrder (update_fill t oid f) oid = (findOrder t oid).map (applyFill · f) := by
  induction t with
  | nil => rfl
  | cons p rest ih =>
    by_cases h : p.1 = oid
    · simp [update_fill, findOrder, h]
    · simpa [update_fill, findOrder, h] using ih

/-! ## Spike detection (spike_detector.py) -/

/-- `config.min_spike_threshold` (default "0.20"). -/
def min_spike_threshold : ℚ := 20 / 100

/-- `config.min_liquidity` (default "1000"). -/
def min_liquidity : ℚ := 1000

/-- `config.max_position_size` (default "100"). -/
def max_position_size : ℚ := 100

/-- `SpikeDetector._cooldown_seconds`: 5 min cooldown per market. -/
def cooldown_seconds : ℚ := 300

/-- `SpikeDetector._calculate_confidence`: sequential score accumulation over
the spike-magnitude, liquidity and NO-price tiers, capped at 1.0. -/
def calculate_confidence (spike_pct liquidity no_price : ℚ) : ℚ :=
  let score : ℚ := 0
  let score := score +
    (if spike_pct ≥ 30 / 100 then 4 / 10
     else if spike_pct ≥ 20 / 100 then 3 / 10
     else 2 / 10)
  let score := score +
    (if liquidity ≥ 10000 then 3 / 10
     else if liquidity ≥ 5000 then 2 / 10
     else if liquidity ≥ min_liquidity then 1 / 10
     else 0)
  let score := score +
    (if no_price ≤ 30 / 100 then 3 / 10
     else if no_price ≤ 50 / 100 then 2 / 10
     else 1 / 10)
  min score 1

/-- The spike-magnitude tier contribution, as the spec words it. -/
def magnitude_tier (spike_pct : ℚ) : ℚ :=
  if spike_pct ≥ 30 / 100 then 4 / 10
  else if spike_pct ≥ 20 / 100 then 3 / 10
  else 2 / 10

/-- The liquidity tier contribution, as the spec words it (0 below the floor). -/
def liquidity_tier (liquidity : ℚ) : ℚ :=
  if liquidity ≥ 10000 then 3 / 10
  else if liquidity ≥ 5000 then 2 / 10
  else if liquidity ≥ min_liquidity then 1 / 10
  else 0

/-- The opposing-price attractiveness tier contribution. -/
def no_price_tier (no_price : ℚ) : ℚ :=
  if no_price ≤ 30 / 100 then 3 / 10
  else if no_price ≤ 50 / 100 then 2 / 10
  else 1 / 10

/-- `SpikeSignal` (the `market` field is kept as the fields the core reads). -/
structure SpikeSignal where
  token_id_no : String
  yes_price_before : ℚ
  yes_price_after : ℚ
  spike_pct : ℚ
  no_price : ℚ
  timestamp : ℚ
  confidence : ℚ
deriving DecidableEq, Repr

/-- The `SpikeDetector` mutable state: `_baseline_prices` and
`_last_spike_time`, both keyed by the YES token id. -/
structure DetectorState where
  baseline_prices : List (String × ℚ)
  last_spike_time : List (String × ℚ)
deriving DecidableEq, Repr

/-- Lookup in an association list with a default (Python `dict.get(k, d)`). -/
def lookupD (m : List (String × ℚ)) (k : String) (d : ℚ) : ℚ :=
  match m with
  | [] => d
  | p :: rest => if p.1 = k then p.2 else lookupD rest k d

/-- Lookup in an association list (Python `dict.get(k)`). -/
def lookup? (m : List (String × ℚ)) (k : String) : Option ℚ :=
  match m with
  | [] => none
  | p :: rest => if p.1 = k then some p.2 else lookup? rest k

/-- Point update of an association list (Python `d[k] = v`): later lookups of
`k` see `v`, other keys are unaffected. -/
def setKey (m : List (String × ℚ)) (k : String) (v : ℚ) : List (String × ℚ) :=
  (k, v) :: m

/-- `SpikeDetector.update_baselines`, restricted to one market and one
observation: first observation becomes the baseline; afterwards exponential
smoothing with α = 0.1. -/
def update_baseline (baseline : Option ℚ) (current_price : ℚ) : ℚ :=
  match baseline with
  | none => current_price
  | some old_baseline => (1 / 10) * current_price + (1 - 1 / 10) * old_baseline

/-- Baseline after feeding a whole sequence of observed prices for one
instrument, starting with no baseline. -/
def baseline_after (prices : List ℚ) : Option ℚ :=
  prices.foldl (fun b p => some (update_baseline b p)) none

/-- Baseline after `n` repetitions of the same observed price `x`, starting
from an existing baseline `b0`. -/
def repeat_baseline (x b0 : ℚ) : ℕ → ℚ
  | 0 => b0
  | n + 1 => update_baseline (some (repeat_baseline x b0 n)) x

/-- The per-call environment of `SpikeDetector.detect_spike`: the clock value
and everything fetched from the client during the call. -/
structure DetectInput where
  token_id_yes : String
  token_id_no : String
  liquidity : ℚ
  now : ℚ
  current_yes_price : ℚ
  recent_change : Option ℚ
  no_price : ℚ
deriving DecidableEq, Repr

/-- The spike percentage computed inside `SpikeDetector.detect_spike`:
maximum of the baseline-relative change (0 when the baseline is not positive)
and the recent history change.  `recent_change if recent_change else 0`
collapses both `None` and `0.0` to 0, which is `Option.getD _ 0`. -/
def spike_pct_of (baseline : ℚ) (inp : DetectInput) : ℚ :=
  max (if baseline > 0 then (inp.current_yes_price - baseline) / baseline else 0)
    (inp.recent_change.getD 0)

/-- `SpikeDetector.detect_spike` continued: the cooldown gate, the baseline
gate, the threshold gate, then signal emission with the cooldown timestamp
recorded. -/
def detect_spike (st : DetectorState) (inp : DetectInput) : Option SpikeSignal × DetectorState :=
  if inp.now - lookupD st.last_spike_time inp.token_id_yes 0 < cooldown_seconds then (none, st)
  else
    match lookup? st.baseline_prices inp.token_id_yes with
    | none => (none, st)
    | some baseline =>
      if spike_pct_of baseline inp < min_spike_threshold then (none, st)
      else
        (some { token_id_no := inp.token_id_no
                yes_price_before := baseline
                yes_price_after := inp.current_yes_price
                spike_pct := spike_pct_of baseline inp
                no_price := inp.no_price
                timestamp := inp.now
                confidence := calculate_confidence (spike_pct_of baseline inp) inp.liquidity inp.no_price },
         { st with last_spike_time := setKey st.last_spike_time inp.token_id_yes inp.now })

/-- The detector state after a whole sequence of `detect_spike` calls. -/
def run_state (st : DetectorState) : List DetectInput → DetectorState
  | [] => st
  | inp :: rest => run_state (detect_spike st inp).2 rest

/-! ## Strategy (strategy.py) -/

/-- `MeanReversionStrategy.min_confidence`. -/
def min_confidence : ℚ := 1 / 2

/-- `MeanReversionStrategy.min_no_price`. -/
def min_no_price : ℚ := 10 / 100

/-- `MeanReversionStrategy.max_no_price`. -/
def max_no_price : ℚ := 70 / 100

/-- The reason carried by a `TradeDecision`; the source formats these as
strings, with the shown rational interpolated to two decimals. -/
inductive DecisionReason where
  | noPriceTooLow (no_price : ℚ)
  | noPriceTooHigh (no_price : ℚ)
  | spikedSmart (spike_pct : ℚ) (order_reason : String)
  | spikedFallback (spike_pct : ℚ) (limit_price : ℚ)
deriving DecidableEq, Repr

/-- `TradeDecision`. -/
structure TradeDecision where
  signal : SpikeSignal
  token_id : String
  side : String
  size : ℚ
  limit_price : ℚ
  reason : DecisionReason
  order_params : Option SmartOrderParams
deriving DecidableEq, Repr

/-- `MeanReversionStrategy._calculate_size`: scale the max position size by
confidence and by a spike-magnitude multiplier, floored at $10. -/
def calculate_size (signal : SpikeSignal) : ℚ :=
  let base_size := max_position_size
  let size := base_size * signal.confidence
  let size := size *
    (if signal.spike_pct ≥ 30 / 100 then 1
     else if signal.spike_pct ≥ 25 / 100 then 8 / 10
     else 6 / 10)
  max size 10

/-- `MeanReversionStrategy._get_smart_order_params`: analyze the book (any
exception yields `none`, the caught path), compute optimal order parameters,
and clamp the size on thin books. -/
def get_smart_order_params (signal : SpikeSignal) (orderbook : RawOrderbook)
    (target_size : ℚ) (now : ℚ) : Option SmartOrderParams :=
  match analyzeE orderbook with
  | Except.error _ => none
  | Except.ok analysis =>
    let time_since_spike := now - signal.timestamp
    let params := get_optimal_order analysis target_size signal.spike_pct time_since_spike
    if is_thin analysis then
      some { params with size := max (min params.size (analysis.bid_depth_1pct * (3 / 10))) 10 }
    else
      some params

/-- `MeanReversionStrategy.evaluate`.  `some ob` models a snapshot dict with
its `bids` / `asks` keys (truthy in the source's `if no_orderbook:` test);
`none` models passing `None`. -/
def evaluate (signal : SpikeSignal) (no_orderbook : Option RawOrderbook)
    (now : ℚ) : Option TradeDecision :=
  if signal.confidence < min_confidence then none
  else if signal.no_price < min_no_price then
    some { signal := signal
           token_id := signal.token_id_no
           side := "buy"
           size := 0
           limit_price := 0
           reason := DecisionReason.noPriceTooLow signal.no_price
           order_params := none }
  else if signal.no_price > max_no_price then
    some { signal := signal
           token_id := signal.token_id_no
           side := "buy"
           size := 0
           limit_price := 0
           reason := DecisionReason.noPriceTooHigh signal.no_price
           order_params := none }
  else
    let size := calculate_size signal
    let fallback : TradeDecision :=
      { signal := signal
        token_id := signal.token_id_no
        side := "buy"
        size := size
        limit_price := min (signal.no_price + 2 / 100) (95 / 100)
        reason := DecisionReason.spikedFallback signal.spike_pct
                    (min (signal.no_price + 2 / 100) (95 / 100))
        order_params := none }
    match no_orderbook with
    | some ob =>
      (match get_smart_order_params signal ob size now with
       | some params =>
         some { signal := signal
                token_id := signal.token_id_no
                side := "buy"
                size := params.size
                limit_price := params.price
                reason := DecisionReason.spikedSmart signal.spike_pct params.reason
                order_params := some params }
       | none => some fallback)
    | none => some fallback

/-! ## Claim theorems -/

lemma analyzeParsed_best_bid (b : OrderbookLevel) (bt asks : List OrderbookLevel) :
    (analyzeParsed (b :: bt) asks).best_bid = b.price := rfl

lemma analyzeParsed_best_ask (bids : List OrderbookLevel) (a : OrderbookLevel)
    (at_ : List OrderbookLevel) : (analyzeParsed bids (a :: at_)).best_ask = a.price := rfl

/-- C1 counterexample: on an unsorted snapshot whose second bid level has the
highest price, `analyze` reports the first level's price as the best bid, which
is strictly below the highest bid price — the analyzer does not sort. -/
theorem C1_counterexample :
    (analyzeParsed [⟨3 / 10, 1⟩, ⟨1 / 2, 1⟩] []).best_bid = 3 / 10 ∧
    (⟨1 / 2, 1⟩ : OrderbookLevel) ∈ [(⟨3 / 10, 1⟩ : OrderbookLevel), ⟨1 / 2, 1⟩] ∧
    ¬ ((1 : ℚ) / 2 ≤ 3 / 10) := by
  refine ⟨rfl, by simp, by norm_num⟩

/-- C1 (amended): `analyze` takes the levels in input order without sorting;
the best bid is the price of the first bid level (0 when there are no bids)
and the best ask the price of the first ask level (1 when there are no asks).
When the bids arrive sorted descending and the asks sorted ascending, these
are the highest bid price and the lowest ask price. -/
theorem C1_analyze_best_levels (bids asks : List OrderbookLevel)
    (hb : bids.Pairwise (fun x y => y.price ≤ x.price))
    (ha : asks.Pairwise (fun x y => x.price ≤ y.price)) :
    ((bids = [] → (analyzeParsed bids asks).best_bid = 0) ∧
     (∀ l ∈ bids, l.price ≤ (analyzeParsed bids asks).best_bid) ∧
     (bids ≠ [] → ∃ l ∈ bids, (analyzeParsed bids asks).best_bid = l.price)) ∧
    ((asks = [] → (analyzeParsed bids asks).best_ask = 1) ∧
     (∀ l ∈ asks, (analyzeParsed bids asks).best_ask ≤ l.price) ∧
     (asks ≠ [] → ∃ l ∈ asks, (analyzeParsed bids asks).best_ask = l.price)) := by
  constructor
  · cases bids with
    | nil =>
      refine ⟨fun _ => rfl, ?_, ?_⟩
      · intro l hl
        exact absurd hl (List.not_mem_nil l)
      · intro h
        exact absurd rfl h
    | cons b bt =>
      rw [List.pairwise_cons] at hb
      refine ⟨fun h => by simp at h, ?_, ?_⟩
      · intro l hl
        rw [analyzeParsed_best_bid]
        rcases List.mem_cons.mp hl with h | h
        · rw [h]
        · exact hb.1 l h
      · intro _
        exact ⟨b, List.mem_cons_self b bt, analyzeParsed_best_bid b bt asks⟩
  · cases asks with
    | nil =>
      refine ⟨fun _ => rfl, ?_, ?_⟩
      · intro l hl
        exact absurd hl (List.not_mem_nil l)
      · intro h
        exact absurd rfl h
    | cons a at_ =>
      rw [List.pairwise_cons] at ha
      refine ⟨fun h => by simp at h, ?_, ?_⟩
      · intro l hl
        rw [analyzeParsed_best_ask]
        rcases List.mem_cons.mp hl with h | h
        · rw [h]
        · exact ha.1 l h
      · intro _
        exact ⟨a, List.mem_cons_self a at_, analyzeParsed_best_ask bids a at_⟩

/-- C1 witness: on a sorted two-level bid book, the reported best bid bounds
the top level's price from above. -/
theorem C1_witness :
    (1 : ℚ) / 2 ≤ (analyzeParsed [⟨1 / 2, 1⟩, ⟨3 / 10, 1⟩] [⟨3 / 5, 2⟩]).best_bid :=
  (C1_analyze_best_levels [⟨1 / 2, 1⟩, ⟨3 / 10, 1⟩] [⟨3 / 5, 2⟩]
    (by norm_num [List.pairwise_cons]) (by norm_num [List.pairwise_cons])).1.2.1
    ⟨1 / 2, 1⟩ (List.mem_cons_self _ _)

/-- C2 counterexample: with a (reachable) analysis whose best bid is 1.505,
the Passive order price is 1.505 itself — neither aligned to the 0.01 tick
nor within [0,1]; `_calculate_price` only rounds the Aggressive and Moderate
prices and never clamps to [0,1]. -/
theorem C2_counterexample :
    (calculate_price (analyzeParsed [⟨301 / 200, 5⟩] [⟨8 / 5, 5⟩]) OrderUrgency.passive).1
      = 301 / 200 ∧
    ¬ tickAligned (301 / 200 : ℚ) ∧ ¬ ((301 : ℚ) / 200 ≤ 1) := by
  refine ⟨rfl, ?_, by norm_num⟩
  rw [tickAligned_iff]
  rintro ⟨k, hk⟩
  have h2 : (k : ℚ) * 2 = 301 := by
    field_simp at hk
    linarith
  have h3 : (k * 2 : ℤ) = 301 := by exact_mod_cast h2
  omega

/-- C2 (amended): when the analysis's best bid and best ask both lie in [0,1]
and the best bid is tick-aligned — as for a well-formed book — every urgency
tier's order price is a multiple of the 0.01 tick and lies within [0,1].
(The Aggressive and Moderate prices are tick-aligned by the rounding; the
Passive price is the best bid unchanged.) -/
theorem C2_price_tick_aligned (a : OrderbookAnalysis) (u : OrderUrgency)
    (hb0 : 0 ≤ a.best_bid) (hb1 : a.best_bid ≤ 1)
    (ha0 : 0 ≤ a.best_ask) (ha1 : a.best_ask ≤ 1)
    (htb : tickAligned a.best_bid) :
    tickAligned (calculate_price a u).1 ∧
    0 ≤ (calculate_price a u).1 ∧ (calculate_price a u).1 ≤ 1 := by
  have hmid0 : 0 ≤ mid_price a := by
    unfold mid_price
    linarith
  have hmid1 : mid_price a ≤ 1 := by
    unfold mid_price
    linarith
  cases u with
  | aggressive =>
    have h0 : 0 ≤ min a.best_ask (mid_price a + tick_size) := by
      rw [tick_size]
      exact le_min ha0 (by linarith)
    have h1 : min a.best_ask (mid_price a + tick_size) ≤ 1 :=
      le_trans (min_le_left _ _) ha1
    exact ⟨round2_tickAligned _, round2_nonneg h0, round2_le_one h1⟩
  | moderate =>
    have h0 : 0 ≤ min (a.best_bid + tick_size) (mid_price a) := by
      rw [tick_size]
      exact le_min (by linarith) hmid0
    have h1 : min (a.best_bid + tick_size) (mid_price a) ≤ 1 :=
      le_trans (min_le_right _ _) hmid1
    exact ⟨round2_tickAligned _, round2_nonneg h0, round2_le_one h1⟩
  | passive =>
    exact ⟨htb, hb0, hb1⟩

/-- C2 witness: the amended statement evaluated on a concrete well-formed
one-level book at bid 0.50 / ask 0.60, for the Aggressive tier. -/
theorem C2_witness :
    tickAligned (calculate_price (analyzeParsed [⟨1 / 2, 5⟩] [⟨3 / 5, 5⟩]) OrderUrgency.aggressive).1 ∧
    0 ≤ (calculate_price (analyzeParsed [⟨1 / 2, 5⟩] [⟨3 / 5, 5⟩]) OrderUrgency.aggressive).1 ∧
    (calculate_price (analyzeParsed [⟨1 / 2, 5⟩] [⟨3 / 5, 5⟩]) OrderUrgency.aggressive).1 ≤ 1 :=
  C2_price_tick_aligned (analyzeParsed [⟨1 / 2, 5⟩] [⟨3 / 5, 5⟩]) OrderUrgency.aggressive
    (by norm_num [analyzeParsed]) (by norm_num [analyzeParsed])
    (by norm_num [analyzeParsed]) (by norm_num [analyzeParsed])
    ((tickAligned_iff _).mpr ⟨50, by norm_num [analyzeParsed]⟩)

lemma applyFill_size (o : OrderInfo) (f : ℚ) : (applyFill o f).size = o.original_size - f := by
  unfold applyFill
  dsimp only
  by_cases h : o.original_size - f ≤ 0
  · rw [if_pos h]
  · rw [if_neg h]

lemma applyFill_original_size (o : OrderInfo) (f : ℚ) :
    (applyFill o f).original_size = o.original_size := by
  unfold applyFill
  dsimp only
  by_cases h : o.original_size - f ≤ 0
  · rw [if_pos h]
  · rw [if_neg h]

lemma applyFill_status (o : OrderInfo) (f : ℚ) :
    (applyFill o f).status = if o.original_size - f ≤ 0 then "filled" else o.status := by
  unfold applyFill
  dsimp only
  by_cases h : o.original_size - f ≤ 0
  · rw [if_pos h, if_pos h]
  · rw [if_neg h, if_neg h]

/-- The tracker used in the C3 counterexample: one open order of size 10. -/
def c3_t0 : OrderTracker := add_order [] "o1" "tok" 1 10 0

/-- The tracker after a fill report of 5. -/
def c3_t1 : OrderTracker := update_fill c3_t0 "o1" 5

/-- The tracker after a subsequent (smaller, out-of-order) fill report of 3. -/
def c3_t2 : OrderTracker := update_fill c3_t1 "o1" 3

/-- C3 counterexample: `update_fill` treats its argument as the cumulative
filled size, so the remaining size of a still-open (non-terminal) order rises
from 5 back to 7 when a later call reports a smaller filled size — remaining
size is not monotonically non-increasing over arbitrary `update_fill` calls. -/
theorem C3_counterexample :
    (findOrder c3_t1 "o1").map OrderInfo.size = some 5 ∧
    (findOrder c3_t1 "o1").map OrderInfo.status = some "open" ∧
    (findOrder c3_t2 "o1").map OrderInfo.size = some 7 ∧
    ¬ ((7 : ℚ) ≤ 5) := by
  refine ⟨?_, ?_, ?_, by norm_num⟩ <;>
    norm_num [c3_t2, c3_t1, c3_t0, update_fill, applyFill, findOrder, add_order]

/-- C3 (amended): across `update_fill` calls whose reported cumulative filled
sizes are non-decreasing, the remaining size of a tracked order is
non-increasing (it always equals original size minus the reported fill), and a
call on an open order promotes it to "filled" exactly when the recomputed
remaining size is ≤ 0. -/
theorem C3_fill_monotone (t : OrderTracker) (oid : String) (o : OrderInfo)
    (f1 f2 : ℚ) (hmem : findOrder t oid = some o) (hopen : o.status = "open")
    (hmono : f1 ≤ f2) :
    ∃ o1 o2, findOrder (update_fill t oid f1) oid = some o1 ∧
      findOrder (update_fill (update_fill t oid f1) oid f2) oid = some o2 ∧
      o1.size = o.original_size - f1 ∧
      o2.size = o.original_size - f2 ∧
      o2.size ≤ o1.size ∧
      (o1.status = "filled" ↔ o1.size ≤ 0) := by
  refine ⟨applyFill o f1, applyFill (applyFill o f1) f2, ?_, ?_, ?_, ?_, ?_, ?_⟩
  · simp [findOrder_update_fill, hmem]
  · simp [findOrder_update_fill, hmem]
  · exact applyFill_size o f1
  · rw [applyFill_size, applyFill_original_size]
  · rw [applyFill_size, applyFill_size, applyFill_original_size]
    linarith
  · rw [applyFill_status, applyFill_size, hopen]
    split <;> rename_i h
    · simp [h]
    · simp [h]

/-- C3 witness: the amended statement on the concrete one-order tracker, with
fill reports 3 then 5. -/
theorem C3_witness :
    ∃ o1 o2, findOrder (update_fill c3_t0 "o1" 3) "o1" = some o1 ∧
      findOrder (update_fill (update_fill c3_t0 "o1" 3) "o1" 5) "o1" = some o2 ∧
      o1.size = (10 : ℚ) - 3 ∧
      o2.size = (10 : ℚ) - 5 ∧
      o2.size ≤ o1.size ∧
      (o1.status = "filled" ↔ o1.size ≤ 0) :=
  C3_fill_monotone c3_t0 "o1"
    { order_id := "o1", token_id := "tok", price := 1, size := 10,
      original_size := 10, filled := 0, created_at := 0, status := "open" }
    3 5 (by norm_num [c3_t0, add_order, findOrder]) rfl (by norm_num)

lemma update_baseline_mem {b p : ℚ} (hb : 0 ≤ b ∧ b ≤ 1) (hp : 0 ≤ p ∧ p ≤ 1) :
    0 ≤ update_baseline (some b) p ∧ update_baseline (some b) p ≤ 1 := by
  unfold update_baseline
  constructor <;> nlinarith [hb.1, hb.2, hp.1, hp.2]

lemma baseline_foldl_mem (ps : List ℚ) :
    ∀ b : ℚ, (0 ≤ b ∧ b ≤ 1) → (∀ p ∈ ps, 0 ≤ p ∧ p ≤ 1) →
      ∀ c : ℚ, ps.foldl (fun b p => some (update_baseline b p)) (some b) = some c →
        0 ≤ c ∧ c ≤ 1 := by
  induction ps with
  | nil =>
    intro b hb _ c hc
    simp only [List.foldl_nil, Option.some_inj] at hc
    exact hc ▸ hb
  | cons p rest ih =>
    intro b hb hps c hc
    simp only [List.foldl_cons] at hc
    exact ih (update_baseline (some b) p)
      (update_baseline_mem hb (hps p (List.mem_cons_self p rest)))
      (fun q hq => hps q (List.mem_cons_of_mem p hq)) c hc

lemma repeat_baseline_dist (x b0 : ℚ) (n : ℕ) :
    |repeat_baseline x b0 n - x| ≤ (9 / 10) ^ n * |b0 - x| := by
  induction n with
  | zero => simp [repeat_baseline]
  | succ n ih =>
    have hstep : repeat_baseline x b0 (n + 1) - x = (9 / 10) * (repeat_baseline x b0 n - x) := by
      simp only [repeat_baseline, update_baseline]
      ring
    rw [hstep, abs_mul, abs_of_nonneg (by norm_num : (0 : ℚ) ≤ 9 / 10), pow_succ]
    calc 9 / 10 * |repeat_baseline x b0 n - x| ≤ 9 / 10 * ((9 / 10) ^ n * |b0 - x|) := by
          linarith
      _ = (9 / 10) ^ n * (9 / 10) * |b0 - x| := by ring

/-- C4: the baseline tracker (i) sets the baseline to the first observed
price, (ii) afterwards updates it by `0.1 * observed + 0.9 * old`, (iii) keeps
it within [0,1] for observations within [0,1], and (iv) under repeated
identical input converges geometrically (ratio 0.9 per update) to that
input. -/
theorem C4_baseline_tracker (p0 : ℚ) (ps : List ℚ) (x b0 : ℚ) (n : ℕ)
    (hps : ∀ p ∈ p0 :: ps, 0 ≤ p ∧ p ≤ 1) :
    update_baseline none p0 = p0 ∧
    (∀ old p : ℚ, update_baseline (some old) p = (1 / 10) * p + (9 / 10) * old) ∧
    (∀ b : ℚ, baseline_after (p0 :: ps) = some b → 0 ≤ b ∧ b ≤ 1) ∧
    |repeat_baseline x b0 n - x| ≤ (9 / 10) ^ n * |b0 - x| ∧
    (∀ ε : ℚ, 0 < ε → ∃ N : ℕ, ∀ m ≥ N, |repeat_baseline x b0 m - x| < ε) := by
  refine ⟨rfl, ?_, ?_, repeat_baseline_dist x b0 n, ?_⟩
  · intro old p
    unfold update_baseline
    ring
  · intro b hb
    unfold baseline_after at hb
    simp only [List.foldl_cons] at hb
    exact baseline_foldl_mem ps (update_baseline none p0)
      (hps p0 (List.mem_cons_self p0 ps))
      (fun q hq => hps q (List.mem_cons_of_mem p0 hq)) b hb
  · intro ε hε
    set c := |b0 - x| with hc
    have hc0 : 0 ≤ c := abs_nonneg _
    obtain ⟨N, hN⟩ := exists_pow_lt_of_lt_one
      (show (0 : ℚ) < ε / (c + 1) by positivity)
      (show (9 : ℚ) / 10 < 1 by norm_num)
    refine ⟨N, fun m hm => ?_⟩
    have h1 : |repeat_baseline x b0 m - x| ≤ (9 / 10) ^ m * c := repeat_baseline_dist x b0 m
    have h2 : ((9 : ℚ) / 10) ^ m ≤ (9 / 10) ^ N :=
      pow_le_pow_of_le_one (by norm_num) (by norm_num) hm
    have h3 : ((9 : ℚ) / 10) ^ m * c ≤ ε / (c + 1) * c := by
      have := mul_le_mul_of_nonneg_right (le_trans h2 (le_of_lt hN)) hc0
      linarith
    have h4 : ε / (c + 1) * c < ε := by
      rw [div_mul_eq_mul_div, div_lt_iff₀ (by linarith)]
      nlinarith
    linarith

/-- C4 witness: the statement evaluated at the two-observation sequence
[1/2, 3/5], repeat value 1/3, initial baseline 0, two smoothing steps. -/
theorem C4_witness :
    update_baseline none (1 / 2) = 1 / 2 ∧
    (∀ old p : ℚ, update_baseline (some old) p = (1 / 10) * p + (9 / 10) * old) ∧
    (∀ b : ℚ, baseline_after [1 / 2, 3 / 5] = some b → 0 ≤ b ∧ b ≤ 1) ∧
    |repeat_baseline (1 / 3) 0 2 - 1 / 3| ≤ (9 / 10) ^ 2 * |(0 : ℚ) - 1 / 3| ∧
    (∀ ε : ℚ, 0 < ε → ∃ N : ℕ, ∀ m ≥ N, |repeat_baseline (1 / 3) 0 m - 1 / 3| < ε) :=
  C4_baseline_tracker (1 / 2) [3 / 5] (1 / 3) 0 2 (by norm_num)

lemma magnitude_tier_nonneg (s : ℚ) : 0 ≤ magnitude_tier s := by
  unfold magnitude_tier
  split_ifs <;> norm_num

lemma liquidity_tier_nonneg (l : ℚ) : 0 ≤ liquidity_tier l := by
  unfold liquidity_tier
  split_ifs <;> norm_num

lemma no_price_tier_nonneg (p : ℚ) : 0 ≤ no_price_tier p := by
  unfold no_price_tier
  split_ifs <;> norm_num

/-- C5: the confidence score is exactly the sum of the three tier
contributions (spike-magnitude tier, liquidity tier, opposing-price tier)
capped at 1.0, hence always within [0,1]; and the scenario spikePct = 0.35,
liquidity = 12000, opposingPrice = 0.25 scores 0.4 + 0.3 + 0.3 capped = 1.0. -/
theorem C5_confidence_tiers :
    (∀ s l p : ℚ,
       calculate_confidence s l p = min (magnitude_tier s + liquidity_tier l + no_price_tier p) 1 ∧
       0 ≤ calculate_confidence s l p ∧ calculate_confidence s l p ≤ 1) ∧
    calculate_confidence (35 / 100) 12000 (25 / 100) = 1 := by
  have heq : ∀ s l p : ℚ,
      calculate_confidence s l p = min (magnitude_tier s + liquidity_tier l + no_price_tier p) 1 := by
    intro s l p
    simp only [calculate_confidence, magnitude_tier, liquidity_tier, no_price_tier, zero_add]
  refine ⟨fun s l p => ⟨heq s l p, ?_, ?_⟩, ?_⟩
  · rw [heq]
    exact le_min
      (add_nonneg (add_nonneg (magnitude_tier_nonneg s) (liquidity_tier_nonneg l))
        (no_price_tier_nonneg p))
      (by norm_num)
  · rw [heq]
    exact min_le_right _ _
  · rw [heq (35 / 100) 12000 (25 / 100)]
    rw [magnitude_tier, liquidity_tier, no_price_tier, min_liquidity]
    norm_num

lemma detect_spike_cases (st : DetectorState) (inp : DetectInput) :
    ((detect_spike st inp).1 = none ∧ (detect_spike st inp).2 = st) ∨
    ((detect_spike st inp).1.isSome ∧
     lookupD st.last_spike_time inp.token_id_yes 0 + cooldown_seconds ≤ inp.now ∧
     (detect_spike st inp).2.last_spike_time = setKey st.last_spike_time inp.token_id_yes inp.now) := by
  unfold detect_spike
  by_cases h1 : inp.now - lookupD st.last_spike_time inp.token_id_yes 0 < cooldown_seconds
  · rw [if_pos h1]
    left
    exact ⟨rfl, rfl⟩
  · rw [if_neg h1]
    cases hb : lookup? st.baseline_prices inp.token_id_yes with
    | none =>
      left
      exact ⟨rfl, rfl⟩
    | some baseline =>
      dsimp only
      by_cases h2 : spike_pct_of baseline inp < min_spike_threshold
      · rw [if_pos h2]
        left
        exact ⟨rfl, rfl⟩
      · rw [if_neg h2]
        right
        exact ⟨rfl, by linarith, rfl⟩

lemma lookupD_setKey_self (m : List (String × ℚ)) (k : String) (v d : ℚ) :
    lookupD (setKey m k v) k d = v := by
  simp [lookupD, setKey]

lemma lookupD_setKey_ne (m : List (String × ℚ)) (k k2 : String) (v d : ℚ)
    (h : k ≠ k2) : lookupD (setKey m k v) k2 d = lookupD m k2 d := by
  simp [lookupD, setKey, h]

lemma detect_spike_emit_records (st : DetectorState) (inp : DetectInput)
    (h : (detect_spike st inp).1.isSome) :
    lookupD (detect_spike st inp).2.last_spike_time inp.token_id_yes 0 = inp.now ∧
    lookupD st.last_spike_time inp.token_id_yes 0 + cooldown_seconds ≤ inp.now := by
  rcases detect_spike_cases st inp with ⟨hn, _⟩ | ⟨_, htime, hlast⟩
  · rw [hn] at h
    simp at h
  · exact ⟨by rw [hlast, lookupD_setKey_self], htime⟩

lemma detect_step_mono (st : DetectorState) (inp : DetectInput) (k : String) :
    lookupD st.last_spike_time k 0 ≤ lookupD (detect_spike st inp).2.last_spike_time k 0 := by
  rcases detect_spike_cases st inp with ⟨_, h⟩ | ⟨_, htime, hlast⟩
  · rw [h]
  · rw [hlast]
    by_cases hk : inp.token_id_yes = k
    · subst hk
      rw [lookupD_setKey_self]
      have hcd : (0 : ℚ) < cooldown_seconds := by norm_num [cooldown_seconds]
      linarith
    · rw [lookupD_setKey_ne _ _ _ _ _ hk]

lemma run_state_mono (inps : List DetectInput) :
    ∀ (st : DetectorState) (k : String),
      lookupD st.last_spike_time k 0 ≤ lookupD (run_state st inps).last_spike_time k 0 := by
  induction inps with
  | nil => intro st k; exact le_refl _
  | cons i rest ih =>
    intro st k
    exact le_trans (detect_step_mono st i k) (ih (detect_spike st i).2 k)

lemma run_state_append (l1 l2 : List DetectInput) :
    ∀ st : DetectorState, run_state st (l1 ++ l2) = run_state (run_state st l1) l2 := by
  induction l1 with
  | nil => intro st; rfl
  | cons i rest ih => intro st; exact ih (detect_spike st i).2

/-- C6: (i) any two `detect_spike` calls that both emit a signal for the same
instrument are at least `cooldown_seconds` (300s) apart; (ii) an emitting call
records its own timestamp as the instrument's cooldown clock; (iii) a later
call for that instrument within the cooldown window returns no signal. -/
theorem C6_cooldown :
    (∀ (st : DetectorState) (pre mid : List DetectInput) (a b : DetectInput),
       a.token_id_yes = b.token_id_yes →
       (detect_spike (run_state st pre) a).1.isSome →
       (detect_spike (run_state st (pre ++ a :: mid)) b).1.isSome →
       a.now + cooldown_seconds ≤ b.now) ∧
    (∀ (st : DetectorState) (inp : DetectInput),
       (detect_spike st inp).1.isSome →
       lookupD (detect_spike st inp).2.last_spike_time inp.token_id_yes 0 = inp.now) ∧
    (∀ (st : DetectorState) (pre mid : List DetectInput) (a b : DetectInput),
       a.token_id_yes = b.token_id_yes →
       (detect_spike (run_state st pre) a).1.isSome →
       b.now - a.now < cooldown_seconds →
       (detect_spike (run_state st (pre ++ a :: mid)) b).1 = none) := by
  have hmain : ∀ (st : DetectorState) (pre mid : List DetectInput) (a b : DetectInput),
      a.token_id_yes = b.token_id_yes →
      (detect_spike (run_state st pre) a).1.isSome →
      (detect_spike (run_state st (pre ++ a :: mid)) b).1.isSome →
      a.now + cooldown_seconds ≤ b.now := by
    intro st pre mid a b htok ha hb
    have hsplit : run_state st (pre ++ a :: mid)
        = run_state (detect_spike (run_state st pre) a).2 mid := by
      rw [run_state_append]
      rfl
    have hrec := (detect_spike_emit_records (run_state st pre) a ha).1
    have hmono := run_state_mono mid (detect_spike (run_state st pre) a).2 a.token_id_yes
    rw [hrec] at hmono
    have hbt := (detect_spike_emit_records _ b hb).2
    rw [hsplit, ← htok] at hbt
    linarith
  refine ⟨hmain, ?_, ?_⟩
  · intro st inp h
    exact (detect_spike_emit_records st inp h).1
  · intro st pre mid a b htok ha hwin
    cases hcase : (detect_spike (run_state st (pre ++ a :: mid)) b).1 with
    | none => rfl
    | some s =>
      exfalso
      have hb : (detect_spike (run_state st (pre ++ a :: mid)) b).1.isSome := by
        rw [hcase]
        rfl
      have := hmain st pre mid a b htok ha hb
      linarith

/-- The detector state used by the C6 witness: one instrument "T" with
baseline 0.30 and no recorded spike yet. -/
def c6_st0 : DetectorState := ⟨[("T", 3 / 10)], []⟩

/-- First witness call: price spikes to 0.50 at t = 1000. -/
def c6_a : DetectInput := ⟨"T", "N", 12000, 1000, 1 / 2, none, 1 / 4⟩

/-- Second witness call: same spike observed again at t = 1300. -/
def c6_b : DetectInput := ⟨"T", "N", 12000, 1300, 1 / 2, none, 1 / 4⟩

lemma c6_a_emits : (detect_spike c6_st0 c6_a).1.isSome := by
  norm_num [detect_spike, c6_st0, c6_a, lookupD, lookup?, spike_pct_of,
    cooldown_seconds, min_spike_threshold, Option.getD, max_def]

lemma c6_b_emits : (detect_spike (run_state c6_st0 ([] ++ c6_a :: [])) c6_b).1.isSome := by
  norm_num [run_state, detect_spike, c6_st0, c6_a, c6_b, lookupD, lookup?, setKey,
    spike_pct_of, cooldown_seconds, min_spike_threshold, Option.getD, max_def]

/-- C6 witness: the two concrete emissions at t = 1000 and t = 1300 are
exactly one cooldown apart. -/
theorem C6_witness : c6_a.now + cooldown_seconds ≤ c6_b.now :=
  C6_cooldown.1 c6_st0 [] [] c6_a c6_b rfl c6_a_emits c6_b_emits

/-- C7: `should_cancel_order` is exactly the first-true-wins evaluation of the
spec's three ordered cancellation rules (price moved against us; stale and far
from best bid; opportunity reverted), returning no-cancel when none fires; and
the two spec scenarios: orderPrice = 0.40 against bestBid = 0.46 cancels under
rule 1, and a 400s-old order at 0.30 against bestBid = 0.35 cancels under
rule 2. -/
theorem C7_cancel_rules :
    (∀ (op age : ℚ) (a : OrderbookAnalysis) (sp : ℚ),
       should_cancel_order op age a sp = evalCancelRules spec_cancel_rules op age a sp) ∧
    should_cancel_order (40 / 100) 100 (analyzeParsed [⟨46 / 100, 5⟩] [⟨48 / 100, 5⟩]) (25 / 100)
      = (true, "Price moved up significantly, order stale") ∧
    should_cancel_order (30 / 100) 400 (analyzeParsed [⟨35 / 100, 5⟩] [⟨40 / 100, 5⟩]) (25 / 100)
      = (true, "Order stale and far from best bid") := by
  refine ⟨?_, ?_, ?_⟩
  · intro op age a sp
    by_cases h1 : a.best_bid > op + 5 / 100 <;>
      by_cases h2 : age > 300 ∧ op < a.best_bid - 2 / 100 <;>
      by_cases h3 : 1 - mid_price a > 60 / 100 <;>
      simp [should_cancel_order, evalCancelRules, spec_cancel_rules, h1, h2, h3]
  · have hb : (analyzeParsed [⟨46 / 100, 5⟩] [⟨48 / 100, 5⟩]).best_bid = 46 / 100 := rfl
    rw [should_cancel_order, if_pos (by rw [hb]; norm_num)]
  · have hb : (analyzeParsed [⟨35 / 100, 5⟩] [⟨40 / 100, 5⟩]).best_bid = 35 / 100 := rfl
    rw [should_cancel_order, if_neg (by rw [hb]; norm_num),
      if_pos (by rw [hb]; constructor <;> norm_num)]

lemma truncInt_nonneg {q : ℚ} (h : 0 ≤ q) : 0 ≤ truncInt q := by
  unfold truncInt
  rw [if_pos h]
  exact Int.floor_nonneg.mpr h

lemma queue_go_nonneg (p : ℚ) (levels : List OrderbookLevel)
    (h : ∀ l ∈ levels, 0 ≤ l.size) : 0 ≤ queue_go p levels := by
  induction levels with
  | nil => exact le_refl _
  | cons l rest ih =>
    have hl : 0 ≤ truncInt l.size := truncInt_nonneg (h l (List.mem_cons_self l rest))
    have hrest : 0 ≤ queue_go p rest := ih (fun x hx => h x (List.mem_cons_of_mem l hx))
    unfold queue_go
    split_ifs <;> omega

/-- The bid levels used in the C8 counterexample: sorted descending, but the
second level carries a negative parsed size. -/
def c8_levels : List OrderbookLevel := [⟨3 / 5, 5⟩, ⟨1 / 2, -10⟩]

/-- C8 counterexample: on a descending bid list containing a negative-size
level (representable, since `analyze` never validates sizes), moving the
requested price from 0.6 down to 0.4 strictly lowers the queue estimate
(5 down to -5), refuting monotonicity as claimed for every level list. -/
theorem C8_counterexample :
    c8_levels.Pairwise (fun x y => y.price ≤ x.price) ∧
    (2 : ℚ) / 5 ≤ 3 / 5 ∧
    calculate_queue_position (2 / 5) 1 c8_levels < calculate_queue_position (3 / 5) 1 c8_levels := by
  refine ⟨?_, by norm_num, ?_⟩
  · norm_num [c8_levels, List.pairwise_cons]
  · norm_num [c8_levels, calculate_queue_position, queue_go, truncInt]
    rw [show ((-10 : ℚ)) = ((-10 : ℤ) : ℚ) by norm_num, Int.ceil_intCast]
    norm_num

/-- C8 (amended): on bid levels sorted descending by price whose sizes are all
nonnegative (as for a well-formed book), the queue-position estimate is
monotonically non-decreasing as the requested price worsens: p2 ≤ p1 implies
the estimate at p2 is ≥ the estimate at p1. -/
theorem C8_queue_monotone (levels : List OrderbookLevel)
    (hs : levels.Pairwise (fun x y => y.price ≤ x.price))
    (hn : ∀ l ∈ levels, 0 ≤ l.size)
    (s p1 p2 : ℚ) (h12 : p2 ≤ p1) :
    calculate_queue_position p1 s levels ≤ calculate_queue_position p2 s levels := by
  unfold calculate_queue_position
  clear hs
  induction levels with
  | nil => exact le_refl _
  | cons l rest ih =>
    have hrest : ∀ x ∈ rest, 0 ≤ x.size := fun x hx => hn x (List.mem_cons_of_mem l hx)
    have hih := ih hrest
    by_cases hA : l.price > p1
    · have hB : l.price > p2 := lt_of_le_of_lt h12 hA
      simp only [queue_go, if_pos hA, if_pos hB]
      omega
    · by_cases hE : l.price = p1
      · rcases lt_or_eq_of_le h12 with hlt | heq
        · have hB : l.price > p2 := hE ▸ hlt
          simp only [queue_go, if_neg hA, if_pos hE, if_pos hB]
          have := queue_go_nonneg p2 rest hrest
          omega
        · subst heq
          exact le_refl _
      · simp only [queue_go, if_neg hA, if_neg hE]
        exact queue_go_nonneg p2 (l :: rest) hn

/-- C8 witness: on a concrete well-formed descending book, worsening the price
from 0.6 to 0.4 does not decrease the queue estimate. -/
theorem C8_witness :
    calculate_queue_position (3 / 5) 1 [⟨3 / 5, 5⟩, ⟨1 / 2, 4⟩]
      ≤ calculate_queue_position (2 / 5) 1 [⟨3 / 5, 5⟩, ⟨1 / 2, 4⟩] :=
  C8_queue_monotone [⟨3 / 5, 5⟩, ⟨1 / 2, 4⟩]
    (by norm_num [List.pairwise_cons])
    (by intro l hl; rcases List.mem_cons.mp hl with h | h
        · rw [h]; norm_num
        · rcases List.mem_cons.mp h with h2 | h2
          · rw [h2]; norm_num
          · exact absurd h2 (List.not_mem_nil l))
    1 (3 / 5) (2 / 5) (by norm_num)

/-- C9: `evaluate` returns nothing exactly when the signal's confidence is
below the 0.5 floor; when confidence passes, an opposing price below 0.10
yields a zero-size decision with the "too low / already priced in" reason and
an opposing price above 0.70 a zero-size decision with the distinct
"too high / insufficient spike" reason. -/
theorem C9_evaluate_bounds :
    (∀ (sig : SpikeSignal) (ob : Option RawOrderbook) (now : ℚ),
       evaluate sig ob now = none ↔ sig.confidence < min_confidence) ∧
    (∀ (sig : SpikeSignal) (ob : Option RawOrderbook) (now : ℚ),
       ¬ sig.confidence < min_confidence → sig.no_price < min_no_price →
       evaluate sig ob now = some ⟨sig, sig.token_id_no, "buy", 0, 0,
         DecisionReason.noPriceTooLow sig.no_price, none⟩) ∧
    (∀ (sig : SpikeSignal) (ob : Option RawOrderbook) (now : ℚ),
       ¬ sig.confidence < min_confidence → sig.no_price > max_no_price →
       evaluate sig ob now = some ⟨sig, sig.token_id_no, "buy", 0, 0,
         DecisionReason.noPriceTooHigh sig.no_price, none⟩) := by
  refine ⟨?_, ?_, ?_⟩
  · intro sig ob now
    constructor
    · intro h
      by_contra hc
      unfold evaluate at h
      rw [if_neg hc] at h
      split_ifs at h
      rcases ob with _ | ob2
      · exact Option.noConfusion h
      · dsimp only at h
        rcases hg : get_smart_order_params sig ob2 (calculate_size sig) now with _ | params
        · rw [hg] at h
          exact Option.noConfusion h
        · rw [hg] at h
          exact Option.noConfusion h
    · intro h
      unfold evaluate
      rw [if_pos h]
  · intro sig ob now hc hlow
    unfold evaluate
    rw [if_neg hc, if_pos hlow]
  · intro sig ob now hc hhigh
    have hnotlow : ¬ sig.no_price < min_no_price := by
      rw [min_no_price]
      rw [max_no_price] at hhigh
      linarith
    unfold evaluate
    rw [if_neg hc, if_neg hnotlow, if_pos hhigh]

/-- The signal of the C9 scenario: confidence 0.6, opposing price 0.05. -/
def c9_sig : SpikeSignal := ⟨"N", 3 / 10, 1 / 2, 35 / 100, 1 / 20, 0, 6 / 10⟩

/-- C9 witness: the spec scenario — opposingPrice 0.05 yields the zero-size
decision with the "too low" reason. -/
theorem C9_witness :
    evaluate c9_sig none 0 = some ⟨c9_sig, c9_sig.token_id_no, "buy", 0, 0,
      DecisionReason.noPriceTooLow c9_sig.no_price, none⟩ :=
  C9_evaluate_bounds.2.1 c9_sig none 0
    (by norm_num [c9_sig, min_confidence])
    (by norm_num [c9_sig, min_no_price])

/-- C10: when a signal passes the confidence and price-bound gates but the
supplied order-book snapshot makes `analyze` raise, `evaluate` still returns a
decision (the exception is swallowed in `_get_smart_order_params`) carrying
the fallback limit price min(opposingPrice + 0.02, 0.95) and the computed base
size. -/
theorem C10_evaluate_fallback (sig : SpikeSignal) (ob : RawOrderbook) (now : ℚ) (e : String)
    (hconf : ¬ sig.confidence < min_confidence)
    (hlow : ¬ sig.no_price < min_no_price)
    (hhigh : ¬ sig.no_price > max_no_price)
    (herr : analyzeE ob = Except.error e) :
    evaluate sig (some ob) now =
      some { signal := sig
             token_id := sig.token_id_no
             side := "buy"
             size := calculate_size sig
             limit_price := min (sig.no_price + 2 / 100) (95 / 100)
             reason := DecisionReason.spikedFallback sig.spike_pct
               (min (sig.no_price + 2 / 100) (95 / 100))
             order_params := none } := by
  have hsmart : get_smart_order_params sig ob (calculate_size sig) now = none := by
    unfold get_smart_order_params
    rw [herr]
  unfold evaluate
  rw [if_neg hconf, if_neg hlow, if_neg hhigh]
  dsimp only
  rw [hsmart]

/-- The signal of the C10 witness: confidence 0.6, opposing price 0.30. -/
def c10_sig : SpikeSignal := ⟨"N", 3 / 10, 1 / 2, 35 / 100, 3 / 10, 0, 6 / 10⟩

/-- The malformed snapshot of the C10 witness: its single bid level has no
parseable price, so `analyze` raises during parsing. -/
def c10_ob : RawOrderbook := ⟨[⟨none, some 1⟩], []⟩

/-- C10 witness: on the malformed snapshot, `evaluate` returns the fallback
decision at limit price 0.32 with the computed base size. -/
theorem C10_witness :
    evaluate c10_sig (some c10_ob) 0 =
      some { signal := c10_sig
             token_id := c10_sig.token_id_no
             side := "buy"
             size := calculate_size c10_sig
             limit_price := min (c10_sig.no_price + 2 / 100) (95 / 100)
             reason := DecisionReason.spikedFallback c10_sig.spike_pct
               (min (c10_sig.no_price + 2 / 100) (95 / 100))
             order_params := none } :=
  C10_evaluate_fallback c10_sig c10_ob 0 "malformed level"
    (by norm_num [c10_sig, min_confidence])
    (by norm_num [c10_sig, min_no_price])
    (by norm_num [c10_sig, max_no_price])
    rfl
